import Mathlib

/-!
Shallow embedding of the bci-logger-sim core (spike generator, EEG generator,
brain model) over exact rational arithmetic, with the pseudorandom stream made
explicit, together with theorems settling the specification claims.

Modelling conventions:
* Python floats are modelled as `ℚ`; every float constant of the source is a
  rational (e.g. `np.pi` is the IEEE-754 double `piQ` below).
* A NumPy `RandomState` is modelled as an `RNG`: an abstract stream of draws
  in `[0, 1)` plus a cursor.  `uniform(a, b)` maps a draw `u` to
  `a + (b - a) * u`, `randint(a, b)` to `a + ⌊(b - a) * u⌋`, and
  `normal(0, s)` to `s * gauss u` for an abstract transform `gauss`;
  transcendental functions (`np.sin`, the Gaussian inverse CDF) are carried as
  explicit function parameters `msin`/`gauss`, since no claim depends on
  their values.
* Python exceptions become `Except GenError`; mutation of `self` becomes
  explicit state passing that also returns the state reached when an
  exception propagates (mirroring that Python leaves earlier field mutations
  in place).
-/

/-- Model of a `numpy.random.RandomState`: an abstract stream of draws and a
cursor into it.  Successive calls consume successive positions. -/
structure RNG where
  stream : ℕ → ℚ
  pos : ℕ

/-- Consume one draw (models `RandomState.random()` / `random_sample()`). -/
def RNG.next (r : RNG) : ℚ × RNG :=
  (r.stream r.pos, ⟨r.stream, r.pos + 1⟩)

/-- Consume `n` draws at once (models `RandomState.random(n)`). -/
def RNG.take (r : RNG) (n : ℕ) : List ℚ × RNG :=
  ((List.range n).map fun i => r.stream (r.pos + i), ⟨r.stream, r.pos + n⟩)

/-- One draw from `uniform(a, b)`: a draw `u` mapped to `a + (b - a) * u`. -/
def RNG.uniform (r : RNG) (a b : ℚ) : ℚ × RNG :=
  (a + (b - a) * r.stream r.pos, ⟨r.stream, r.pos + 1⟩)

/-- `n` draws from `uniform(a, b, n)`. -/
def RNG.uniformList (r : RNG) (a b : ℚ) (n : ℕ) : List ℚ × RNG :=
  ((List.range n).map fun i => a + (b - a) * r.stream (r.pos + i), ⟨r.stream, r.pos + n⟩)

/-- One draw from `randint(a, b)` (integers in `[a, b)`), modelled by the
inverse CDF `a + ⌊(b - a) * u⌋` of a single uniform draw. -/
def RNG.randint (r : RNG) (a b : ℤ) : ℤ × RNG :=
  (a + ⌊((b - a : ℤ) : ℚ) * r.stream r.pos⌋, ⟨r.stream, r.pos + 1⟩)

/-- Python `int(q)`: truncation toward zero (`Int.tdiv` of the reduced
numerator by the denominator). -/
def intTrunc (q : ℚ) : ℤ :=
  q.num.tdiv (q.den : ℤ)

/-- `np.pi` as the exact IEEE-754 double value used by the source. -/
def piQ : ℚ := 884279719003555 / 281474976710656

/-- Error taxonomy of the embedded code: `ValueError(f"Unknown mode: ...")`,
`ValueError(f"Unknown band: ...")`, `ValueError(f"Unknown state: ...")`,
Python's `ZeroDivisionError`, NumPy's `ValueError: negative dimensions are
not allowed` (a negative array size), Python's `TypeError` (a required
argument missing), and NumPy's `ValueError: zero-size array to reduction
operation` (`np.max` of an empty array). -/
inductive GenError where
  | invalidMode (mode : String)
  | unknownBand (band : String)
  | unknownState (state : String)
  | zeroDivision
  | negativeDimensions
  | typeError
  | zeroSizeReduction

/-- Embeds `SpikeGenerator.poisson_spikes` (spike_generator.py lines 31-47):
`n_bins = int(duration / dt)`, each bin spikes independently when its draw is
`< rate * dt`, and spike times are `bin_index * dt`.  Error paths are those
of the Python: `duration / dt` with `dt = 0` raises `ZeroDivisionError`, and
a negative `n_bins` makes `rng.random(n_bins)` raise NumPy's
`negative dimensions are not allowed`. -/
def poisson_spikes (rng : RNG) (rate duration dt : ℚ) : Except GenError (List ℚ × RNG) :=
  if dt = 0 then .error .zeroDivision
  else if intTrunc (duration / dt) < 0 then .error .negativeDimensions
  else
    let n_bins := (intTrunc (duration / dt)).toNat
    let prob := rate * dt
    let spike_bins := (List.range n_bins).filter fun i => rng.stream (rng.pos + i) < prob
    .ok (spike_bins.map fun (i : ℕ) => (i : ℚ) * dt, ⟨rng.stream, rng.pos + n_bins⟩)

/-- One step of the `refractory_spikes` sweep: at time `t = k * dt`, if at
least the refractory period elapsed since the last spike, consume one draw
and spike when it is `< rate * dt`.  The accumulator is
(spike times so far, last spike time, generator). -/
def refractory_step (rate refractory_period dt : ℚ) (acc : List ℚ × ℚ × RNG) (k : ℕ) :
    List ℚ × ℚ × RNG :=
  let t := (k : ℚ) * dt
  if refractory_period ≤ t - acc.2.1 then
    let (u, r1) := acc.2.2.next
    if u < rate * dt then (acc.1 ++ [t], t, r1) else (acc.1, acc.2.1, r1)
  else acc

/-- Embeds `SpikeGenerator.refractory_spikes` (spike_generator.py lines
49-80).  The Python `while t < duration` loop visits exactly the times
`k * dt` with `k * dt < duration`, i.e. `⌈duration / dt⌉₊` steps for
`dt > 0`; `last_spike` starts at `-refractory_period`.  (For `dt ≤ 0` the
Python loop does not terminate; the model performs zero steps there.) -/
def refractory_spikes (rng : RNG) (rate duration refractory_period dt : ℚ) : List ℚ × RNG :=
  let n_steps := if 0 < dt then ⌈duration / dt⌉₊ else 0
  let res := (List.range n_steps).foldl (refractory_step rate refractory_period dt)
    ([], -refractory_period, rng)
  (res.1, res.2.2)

/-- The spikes one burst contributes in `burst_spikes`: for
`i < spikes_per_burst`, the time `burst_start + i * intraburst_interval`,
kept when `< duration` (the loop body at spike_generator.py lines 107-111). -/
def burst_run (spikes_per_burst : ℕ) (duration intraburst_interval : ℚ) (burst_start : ℚ) :
    List ℚ :=
  ((List.range spikes_per_burst).map fun (i : ℕ) => burst_start + (i : ℚ) * intraburst_interval).filter
    fun t => t < duration

/-- Embeds `SpikeGenerator.burst_spikes` (spike_generator.py lines 82-113):
burst onsets from the Poisson model, one `burst_run` per onset, and the
concatenation sorted ascending (`sorted(spike_times)`). -/
def burst_spikes (rng : RNG) (burst_rate : ℚ) (spikes_per_burst : ℕ)
    (duration intraburst_interval dt : ℚ) : Except GenError (List ℚ × RNG) :=
  match poisson_spikes rng burst_rate duration dt with
  | .error e => .error e
  | .ok (burst_times, r1) =>
      let spike_times :=
        burst_times.flatMap (burst_run spikes_per_burst duration intraburst_interval)
      .ok (List.insertionSort (· ≤ ·) spike_times, r1)

/-- The record returned by `generate_spike_train`. -/
structure SpikeTrain where
  neuron_id : ℕ
  spike_times : List ℚ
  spike_count : ℕ
  duration : ℚ
  mode : String
  firing_rate : ℚ

/-- Embeds `SpikeGenerator.generate_spike_train` (spike_generator.py lines
115-153).  The Python `**kwargs` are modelled as explicit parameters:
`intraburst_interval`, `refractory_period` and `dt` carry the callees'
default values when a caller passes no kwargs, while `spikes_per_burst` has
no Python default, so it is an `Option`: a burst-mode call with `none`
raises `TypeError` as the Python call would.  An unknown mode raises
`ValueError: Unknown mode` before any generation; `firing_rate` is
`spike_count / duration` when `duration > 0`, else `0`. -/
def generate_spike_train (rng : RNG) (neuron_id : ℕ) (rate duration : ℚ) (mode : String)
    (spikes_per_burst : Option ℕ) (intraburst_interval refractory_period dt : ℚ) :
    Except GenError (SpikeTrain × RNG) :=
  let res : Except GenError (List ℚ × RNG) :=
    if mode = "poisson" then poisson_spikes rng rate duration dt
    else if mode = "refractory" then .ok (refractory_spikes rng rate duration refractory_period dt)
    else if mode = "burst" then
      match spikes_per_burst with
      | none => .error .typeError
      | some nb => burst_spikes rng rate nb duration intraburst_interval dt
    else .error (.invalidMode mode)
  match res with
  | .error e => .error e
  | .ok (spike_times, r1) =>
      .ok ({ neuron_id := neuron_id, spike_times := spike_times,
             spike_count := spike_times.length, duration := duration, mode := mode,
             firing_rate := if 0 < duration then (spike_times.length : ℚ) / duration else 0 },
           r1)

/-- The loop of `generate_population`: one uniform rate draw from
`rate_range` and one `generate_spike_train` per neuron index, in order. -/
def population_go (rate_range : ℚ × ℚ) (duration : ℚ) (mode : String) :
    List ℕ → RNG → Except GenError (List SpikeTrain × RNG)
  | [], rng => .ok ([], rng)
  | i :: rest, rng =>
      let (rate, r1) := rng.uniform rate_range.1 rate_range.2
      match generate_spike_train r1 i rate duration mode none (1/200) (1/500) (1/1000) with
      | .error e => .error e
      | .ok (train, r2) =>
          match population_go rate_range duration mode rest r2 with
          | .error e => .error e
          | .ok (trains, r3) => .ok (train :: trains, r3)

/-- Embeds `SpikeGenerator.generate_population` (spike_generator.py lines
155-181): neuron indices `0 .. n_neurons - 1`, each with a rate drawn
uniformly from `rate_range` (NumPy accepts `min > max` without error) and a
train from `generate_spike_train` with no extra kwargs. -/
def generate_population (rng : RNG) (n_neurons : ℕ) (rate_range : ℚ × ℚ) (duration : ℚ)
    (mode : String) : Except GenError (List SpikeTrain × RNG) :=
  population_go rate_range duration mode (List.range n_neurons) rng

/-- `EEGGenerator.BANDS` (eeg_generator.py lines 23-29), in source order. -/
def BANDS : List (String × ℚ × ℚ) :=
  [("delta", 1/2, 4), ("theta", 4, 8), ("alpha", 8, 13), ("beta", 13, 30), ("gamma", 30, 100)]

/-- Embeds `EEGGenerator.generate_band` (eeg_generator.py lines 42-77):
unknown band names raise `ValueError: Unknown band`; otherwise 3 component
frequencies uniform in the band, 3 phases uniform in `[0, 2π)`, 3 weights
uniform in `[0.5, 1]` normalized to sum 1, and the signal is
`amplitude * Σ w * sin(2π f t + φ)` over `int(duration * sampling_rate)`
samples at times `j / sampling_rate`. -/
def generate_band (msin : ℚ → ℚ) (sampling_rate : ℚ) (rng : RNG) (band_name : String)
    (duration amplitude : ℚ) : Except GenError (List ℚ × RNG) :=
  match BANDS.find? fun b => b.1 == band_name with
  | none => .error (.unknownBand band_name)
  | some b =>
      let freq_min := b.2.1
      let freq_max := b.2.2
      let n_samples := (intTrunc (duration * sampling_rate)).toNat
      let (frequencies, r1) := rng.uniformList freq_min freq_max 3
      let (phases, r2) := r1.uniformList 0 (2 * piQ) 3
      let (weights, r3) := r2.uniformList (1/2) 1 3
      let wsum := weights.sum
      let nweights := weights.map fun w => w / wsum
      let comps := (frequencies.zip phases).zip nweights
      let signal := (List.range n_samples).map fun (j : ℕ) =>
        (comps.map fun c => c.2 * msin (2 * piQ * c.1.1 * ((j : ℚ) / sampling_rate) + c.1.2)).sum
      .ok (signal.map fun x => amplitude * x, r3)

/-- The weight normalization of `generate_mixed_signal` (eeg_generator.py
lines 99-101): divide every weight by the total, via a dict comprehension.
The division is performed once per item, so `ZeroDivisionError` is raised
exactly when the total is zero AND the mapping has at least one item; the
empty mapping passes through as the empty dict without any division. -/
def normalize_band_weights (ws : List (String × ℚ)) : Except GenError (List (String × ℚ)) :=
  let total_weight := (ws.map fun p => p.2).sum
  if total_weight = 0 ∧ ws ≠ [] then .error .zeroDivision
  else .ok (ws.map fun p => (p.1, p.2 / total_weight))

/-- The band loop of `generate_mixed_signal` (eeg_generator.py lines
106-110): for each (band, weight) with `weight > 0`, add the band signal
generated with the weight as amplitude. -/
def mixed_bands_go (msin : ℚ → ℚ) (sampling_rate duration : ℚ) :
    List (String × ℚ) → List ℚ → RNG → Except GenError (List ℚ × RNG)
  | [], signal, r => .ok (signal, r)
  | (band_name, weight) :: rest, signal, r =>
      if 0 < weight then
        match generate_band msin sampling_rate r band_name duration weight with
        | .error e => .error e
        | .ok (band_signal, r1) =>
            mixed_bands_go msin sampling_rate duration rest
              (List.zipWith (· + ·) signal band_signal) r1
      else mixed_bands_go msin sampling_rate duration rest signal r

/-- Embeds `EEGGenerator.generate_mixed_signal` (eeg_generator.py lines
79-117): default weights are 1.0 for each of the five bands, weights are
normalized by `normalize_band_weights`, positive-weight bands are summed,
and Gaussian noise `noise_level * gauss u` per sample is added when
`noise_level > 0`. -/
def generate_mixed_signal (msin gauss : ℚ → ℚ) (sampling_rate : ℚ) (rng : RNG) (duration : ℚ)
    (band_weights : Option (List (String × ℚ))) (noise_level : ℚ) :
    Except GenError (List ℚ × RNG) :=
  let ws := band_weights.getD (BANDS.map fun b => (b.1, 1))
  match normalize_band_weights ws with
  | .error e => .error e
  | .ok nws =>
      let n_samples := (intTrunc (duration * sampling_rate)).toNat
      match mixed_bands_go msin sampling_rate duration nws (List.replicate n_samples 0) rng with
      | .error e => .error e
      | .ok (signal, r1) =>
          if 0 < noise_level then
            let (us, r2) := r1.take n_samples
            .ok (List.zipWith (· + ·) signal (us.map fun u => noise_level * gauss u), r2)
          else .ok (signal, r1)

/-- The fixed per-state band-weight profiles of `generate_mental_state`
(eeg_generator.py lines 161-166), in source insertion order. -/
def state_profiles : List (String × List (String × ℚ)) :=
  [("relaxed", [("alpha", 3), ("theta", 1), ("beta", 1/2), ("delta", 1/2), ("gamma", 1/5)]),
   ("focused", [("beta", 3), ("gamma", 2), ("alpha", 1/2), ("theta", 3/10), ("delta", 1/5)]),
   ("drowsy", [("delta", 3), ("theta", 2), ("alpha", 1/2), ("beta", 1/5), ("gamma", 1/10)]),
   ("active", [("beta", 2), ("gamma", 5/2), ("alpha", 1), ("theta", 1/2), ("delta", 3/10)])]

/-- Embeds `EEGGenerator.generate_mental_state` (eeg_generator.py lines
146-171): an unrecognized state raises `ValueError: Unknown state` before
any generation; otherwise the state profile is passed to
`generate_mixed_signal` with `noise_level = 0.2`. -/
def generate_mental_state (msin gauss : ℚ → ℚ) (sampling_rate : ℚ) (rng : RNG) (state : String)
    (duration : ℚ) : Except GenError (List ℚ × RNG) :=
  match state_profiles.find? fun p => p.1 == state with
  | none => .error (.unknownState state)
  | some p => generate_mixed_signal msin gauss sampling_rate rng duration (some p.2) (1/5)

/-- The record returned by `generate_channel_data`. -/
structure EEGChannel where
  channel_name : String
  signal : List ℚ
  time : List ℚ
  sampling_rate : ℚ
  duration : ℚ
  n_samples : ℕ
  state : String
  mean_amplitude : ℚ
  peak_amplitude : ℚ

/-- Embeds `EEGGenerator.generate_channel_data` (eeg_generator.py lines
173-206).  Its `noise_level` parameter is unused by the source body (the
mental-state path fixes 0.2), so it is not modelled.  On an empty signal
Python's `np.max(np.abs(signal))` raises `ValueError: zero-size array to
reduction operation` (after `np.mean` has produced a NaN with only a
warning), so the empty signal is an error path; on a non-empty signal the
absolute values are nonnegative, so `foldr max 0` equals `np.max`. -/
def generate_channel_data (msin gauss : ℚ → ℚ) (sampling_rate : ℚ) (rng : RNG)
    (channel_name : String) (duration : ℚ) (state : String) :
    Except GenError (EEGChannel × RNG) :=
  match generate_mental_state msin gauss sampling_rate rng state duration with
  | .error e => .error e
  | .ok (signal, r1) =>
      if signal = [] then .error .zeroSizeReduction
      else
        let n := signal.length
        .ok ({ channel_name := channel_name, signal := signal,
               time := (List.range n).map fun (j : ℕ) => (j : ℚ) / sampling_rate,
               sampling_rate := sampling_rate, duration := duration, n_samples := n,
               state := state,
               mean_amplitude := (signal.map fun x => |x|).sum / (n : ℚ),
               peak_amplitude := (signal.map fun x => |x|).foldr max 0 }, r1)

/-- The channel loop of `generate_montage`. -/
def montage_go (msin gauss : ℚ → ℚ) (sampling_rate duration : ℚ) (state : String) :
    List String → RNG → Except GenError (List EEGChannel × RNG)
  | [], r => .ok ([], r)
  | ch :: rest, r =>
      match generate_channel_data msin gauss sampling_rate r ch duration state with
      | .error e => .error e
      | .ok (cd, r1) =>
          match montage_go msin gauss sampling_rate duration state rest r1 with
          | .error e => .error e
          | .ok (cds, r2) => .ok (cd :: cds, r2)

/-- Embeds `EEGGenerator.generate_montage` (eeg_generator.py lines 208-231):
one independent channel record per channel name, in input order. -/
def generate_montage (msin gauss : ℚ → ℚ) (sampling_rate : ℚ) (rng : RNG)
    (channel_names : List String) (duration : ℚ) (state : String) :
    Except GenError (List EEGChannel × RNG) :=
  montage_go msin gauss sampling_rate duration state channel_names rng

/-- One entry of `BrainModel.activity_history` (brain_model.py lines
102-106). -/
structure HistoryEntry where
  duration : ℚ
  state : String
  spike_count : ℕ

/-- The mutable state of a `BrainModel` instance: configuration, the two
seeded generators (`SpikeGenerator(seed)` and `EEGGenerator(..., seed)` each
own a `RandomState(seed)`), `current_state` and `activity_history`. -/
structure BrainModel where
  n_neurons : ℕ
  eeg_channels : List String
  sampling_rate : ℚ
  seed : Option ℤ
  spike_rng : RNG
  eeg_rng : RNG
  current_state : String
  activity_history : List HistoryEntry

/-- Embeds `BrainModel.__init__` (brain_model.py lines 23-55).
`seed_stream` abstracts the PRNG seeding map: `RandomState(seed)` yields the
stream `seed_stream seed` at cursor 0, identically for both owned
generators. -/
def BrainModel.init (seed_stream : Option ℤ → ℕ → ℚ) (n_neurons : ℕ)
    (eeg_channels : Option (List String)) (sampling_rate : ℚ) (seed : Option ℤ) : BrainModel :=
  { n_neurons := n_neurons,
    eeg_channels := eeg_channels.getD ["Fp1", "Fp2", "F3", "F4", "C3", "C4", "P3", "P4"],
    sampling_rate := sampling_rate, seed := seed,
    spike_rng := ⟨seed_stream seed, 0⟩, eeg_rng := ⟨seed_stream seed, 0⟩,
    current_state := "active", activity_history := [] }

/-- The activity snapshot returned by `simulate_activity` (brain_model.py
lines 91-100; the `timestamp: None` placeholder is not modelled). -/
structure Activity where
  duration : ℚ
  state : String
  spike_trains : List SpikeTrain
  eeg_signals : List EEGChannel
  n_neurons : ℕ
  n_channels : ℕ
  sampling_rate : ℚ

/-- Embeds `BrainModel.simulate_activity` (brain_model.py lines 57-108),
including Python's exception behaviour: `current_state` is overwritten
first; the population (mode `"poisson"`) and the montage are generated; the
history entry is appended only after both succeed.  On failure the pair
carries the state reached so far (fields already mutated stay mutated). -/
def simulate_activity (msin gauss : ℚ → ℚ) (bm : BrainModel) (duration : ℚ) (state : String)
    (spike_rate_range : ℚ × ℚ) : Except GenError Activity × BrainModel :=
  let bm1 := { bm with current_state := state }
  match generate_population bm1.spike_rng bm1.n_neurons spike_rate_range duration "poisson" with
  | .error e => (.error e, bm1)
  | .ok (spike_data, sr1) =>
      let bm2 := { bm1 with spike_rng := sr1 }
      match generate_montage msin gauss bm2.sampling_rate bm2.eeg_rng bm2.eeg_channels duration
          state with
      | .error e => (.error e, bm2)
      | .ok (eeg_data, er1) =>
          let bm3 := { bm2 with eeg_rng := er1 }
          let activity : Activity :=
            { duration := duration, state := state, spike_trains := spike_data,
              eeg_signals := eeg_data, n_neurons := bm3.n_neurons,
              n_channels := bm3.eeg_channels.length, sampling_rate := bm3.sampling_rate }
          (.ok activity,
           { bm3 with activity_history := bm3.activity_history ++
              [{ duration := duration, state := state,
                 spike_count := (spike_data.map fun s => s.spike_count).sum }] })

/-- The outcome classification of `generate_intuition_signal`
(brain_model.py lines 130-150): `wisdom_mod = (character_wisdom - 10) // 2`
(Python floor division = `Int.fdiv`), `intuition_score = base_roll +
wisdom_mod`, success iff `intuition_score >= difficulty`, and the four-way
state / spike-rate-envelope selection. -/
def intuition_outcome (base_roll character_wisdom difficulty : ℤ) : String × (ℚ × ℚ) :=
  let wisdom_mod := Int.fdiv (character_wisdom - 10) 2
  let intuition_score := base_roll + wisdom_mod
  if difficulty ≤ intuition_score then
    if difficulty + 5 ≤ intuition_score then ("focused", (30, 60))
    else ("active", (20, 45))
  else
    if intuition_score < difficulty - 5 then ("drowsy", (5, 20))
    else ("relaxed", (10, 30))

/-- The `intuition_data` record (brain_model.py lines 156-163). -/
structure IntuitionData where
  d20_roll : ℤ
  wisdom_modifier : ℤ
  total_score : ℤ
  difficulty_class : ℤ
  success : Bool
  character_wisdom : ℤ

/-- Embeds `BrainModel.generate_intuition_signal` (brain_model.py lines
110-165).  Crucially, the d20 roll `np.random.randint(1, 21)` is drawn from
the PROCESS-WIDE generator `np.random`, not from either seeded
generator owned by the model: the model therefore takes the global stream
`global_rng` as a separate input and returns it advanced. -/
def generate_intuition_signal (msin gauss : ℚ → ℚ) (global_rng : RNG) (bm : BrainModel)
    (difficulty character_wisdom : ℤ) (duration : ℚ) :
    Except GenError (Activity × IntuitionData) × BrainModel × RNG :=
  let (base_roll, g1) := global_rng.randint 1 21
  let wisdom_mod := Int.fdiv (character_wisdom - 10) 2
  let intuition_score := base_roll + wisdom_mod
  let success := decide (difficulty ≤ intuition_score)
  let sr := intuition_outcome base_roll character_wisdom difficulty
  match simulate_activity msin gauss bm duration sr.1 sr.2 with
  | (.error e, bm1) => (.error e, bm1, g1)
  | (.ok activity, bm1) =>
      (.ok (activity,
        { d20_roll := base_roll, wisdom_modifier := wisdom_mod, total_score := intuition_score,
          difficulty_class := difficulty, success := success,
          character_wisdom := character_wisdom }), bm1, g1)

/-- Projection of a `generate_intuition_signal` result onto the d20 roll of
its `intuition_data` (present only on success). -/
def intuition_roll_of (r : Except GenError (Activity × IntuitionData)) : Option ℤ :=
  match r with
  | .ok (_, d) => some d.d20_roll
  | .error _ => none

/-- The record returned by `get_summary_stats`.  The Python dict of the
empty-history branch (brain_model.py lines 174-179) carries only
`total_simulations`, `total_duration` and `states`; the fields absent from
that dict are modelled as `Option` values that are `none` there. -/
structure SummaryStats where
  total_simulations : ℕ
  total_duration : ℚ
  total_spikes : Option ℕ
  average_firing_rate : Option ℚ
  states : List (String × ℕ × ℚ)
  n_neurons : Option ℕ
  n_channels : Option ℕ

/-- One step of the per-state aggregation of `get_summary_stats`
(brain_model.py lines 184-190): Python dict insertion order is the
association-list order. -/
def update_states (acc : List (String × ℕ × ℚ)) (h : HistoryEntry) : List (String × ℕ × ℚ) :=
  if (acc.find? fun p => p.1 == h.state).isSome then
    acc.map fun p => if p.1 == h.state then (p.1, p.2.1 + 1, p.2.2 + h.duration) else p
  else acc ++ [(h.state, 1, h.duration)]

/-- Embeds `BrainModel.get_summary_stats` (brain_model.py lines 167-200). -/
def get_summary_stats (bm : BrainModel) : SummaryStats :=
  match bm.activity_history with
  | [] =>
    { total_simulations := 0, total_duration := 0, total_spikes := none,
      average_firing_rate := none, states := [], n_neurons := none, n_channels := none }
  | _ :: _ =>
    let total_duration := (bm.activity_history.map fun h => h.duration).sum
    let total_spikes := (bm.activity_history.map fun h => h.spike_count).sum
    { total_simulations := bm.activity_history.length,
      total_duration := total_duration,
      total_spikes := some total_spikes,
      average_firing_rate := some (if 0 < total_duration then (total_spikes : ℚ) / total_duration else 0),
      states := bm.activity_history.foldl update_states [],
      n_neurons := some bm.n_neurons,
      n_channels := some bm.eeg_channels.length }

/-- Lookup of one state's `{count, duration}` entry in the per-state
breakdown (first match, as in a Python dict with unique keys). -/
def lookup_state (l : List (String × ℕ × ℚ)) (s : String) : Option (ℕ × ℚ) :=
  (l.find? fun p => p.1 == s).map fun p => p.2

/-- Number of history entries with the given state. -/
def state_count (l : List HistoryEntry) (s : String) : ℕ :=
  (l.filter fun h => h.state == s).length

/-- Cumulative duration of history entries with the given state. -/
def state_duration (l : List HistoryEntry) (s : String) : ℚ :=
  ((l.filter fun h => h.state == s).map fun h => h.duration).sum

/-- Formalization of the claimed burst-spacing property (spec section 8):
the output decomposes into aligned runs of `n` consecutive entries, and
within every complete such run consecutive entries are spaced exactly
`interval` apart. -/
def spaced_runs (n : ℕ) (interval : ℚ) (l : List ℚ) : Prop :=
  ∀ k i : ℕ, i + 1 < n → n * (k + 1) ≤ l.length →
    l.getD (n * k + i + 1) 0 - l.getD (n * k + i) 0 = interval

/-! ## Helper lemmas -/

theorem intTrunc_eq_floor (q : ℚ) (h : 0 ≤ q) : intTrunc q = ⌊q⌋ := by
  unfold intTrunc
  rw [Rat.floor_def]
  exact Int.tdiv_eq_ediv (Rat.num_nonneg.mpr h) (by positivity)


theorem poisson_spikes_eq_ok (rng : RNG) (rate duration dt : ℚ) (hdt : dt ≠ 0)
    (hq : 0 ≤ duration / dt) :
    poisson_spikes rng rate duration dt
      = .ok (((List.range ((intTrunc (duration / dt)).toNat)).filter
            (fun i => decide (rng.stream (rng.pos + i) < rate * dt))).map
              (fun (i : ℕ) => (i : ℚ) * dt),
          ⟨rng.stream, rng.pos + (intTrunc (duration / dt)).toNat⟩) := by
  have hnb : ¬ intTrunc (duration / dt) < 0 := by
    rw [intTrunc_eq_floor _ hq]
    exact not_lt.mpr (Int.floor_nonneg.mpr hq)
  unfold poisson_spikes
  rw [if_neg hdt, if_neg hnb]

theorem refractory_chain_invariant (rate refractory_period dt : ℚ) (l : List ℕ) :
    ∀ (spikes : List ℚ) (last : ℚ) (r : RNG),
      List.Chain' (fun a b => refractory_period ≤ b - a) spikes →
      (∀ x ∈ spikes.getLast?, x = last) →
      List.Chain' (fun a b => refractory_period ≤ b - a)
          (l.foldl (refractory_step rate refractory_period dt) (spikes, last, r)).1 ∧
        ∀ x ∈ (l.foldl (refractory_step rate refractory_period dt) (spikes, last, r)).1.getLast?,
          x = (l.foldl (refractory_step rate refractory_period dt) (spikes, last, r)).2.1 := by
  induction l with
  | nil => intro spikes last r h1 h2; exact ⟨h1, h2⟩
  | cons k rest ih =>
      intro spikes last r h1 h2
      rw [List.foldl_cons]
      by_cases hg : refractory_period ≤ (k : ℚ) * dt - last
      · by_cases hu : r.stream r.pos < rate * dt
        · have hstep : refractory_step rate refractory_period dt (spikes, last, r) k
              = (spikes ++ [(k : ℚ) * dt], (k : ℚ) * dt, ⟨r.stream, r.pos + 1⟩) := by
            simp [refractory_step, RNG.next, hg, hu]
          rw [hstep]
          apply ih
          · refine List.chain'_append.mpr ⟨h1, List.chain'_singleton _, ?_⟩
            intro x hx y hy
            simp only [List.head?_cons, Option.mem_def, Option.some.injEq] at hy
            have hx' := h2 x hx
            subst hx' hy
            linarith
          · rw [List.getLast?_concat]
            intro x hx
            exact (by simpa using hx : (k : ℚ) * dt = x).symm
        · have hstep : refractory_step rate refractory_period dt (spikes, last, r) k
              = (spikes, last, ⟨r.stream, r.pos + 1⟩) := by
            simp [refractory_step, RNG.next, hg, hu]
          rw [hstep]
          exact ih spikes last _ h1 h2
      · have hstep : refractory_step rate refractory_period dt (spikes, last, r) k
            = (spikes, last, r) := by
          simp [refractory_step, hg]
        rw [hstep]
        exact ih spikes last r h1 h2

/-! ## Claim theorems -/

/-- Claim C7 (confirmed): for every refractory generation — any rate,
duration, refractory period, time step and any random stream — every pair of
consecutive spike times returned by `refractory_spikes` differs by at least
the refractory period. -/
theorem c7_refractory_spacing (rng : RNG) (rate duration refractory_period dt : ℚ) :
    List.Chain' (fun a b => refractory_period ≤ b - a)
      (refractory_spikes rng rate duration refractory_period dt).1 := by
  unfold refractory_spikes
  exact (refractory_chain_invariant rate refractory_period dt (List.range _) [] (-refractory_period)
    rng List.chain'_nil (by simp)).1

/-- Claim C2 (confirmed): the outcome classification computes
`wisdom_modifier = floor((wisdom - 10) / 2)` (true floor division, so
wisdom 8 gives -1), `total_score = d20_roll + wisdom_modifier`,
`success = total_score ≥ difficulty`, and selects focused/(30,60) on success
with `total_score ≥ difficulty + 5`, active/(20,45) on other successes,
drowsy/(5,20) on failure with `total_score < difficulty - 5`, and
relaxed/(10,30) otherwise, as a pure function of (d20_roll, wisdom,
difficulty). -/
theorem c2_outcome_classification (base_roll character_wisdom difficulty : ℤ) :
    Int.fdiv (character_wisdom - 10) 2 = ⌊((character_wisdom : ℚ) - 10) / 2⌋ ∧
    intuition_outcome base_roll character_wisdom difficulty =
      (if difficulty ≤ base_roll + Int.fdiv (character_wisdom - 10) 2 ∧
          difficulty + 5 ≤ base_roll + Int.fdiv (character_wisdom - 10) 2 then
        ("focused", ((30 : ℚ), (60 : ℚ)))
      else if difficulty ≤ base_roll + Int.fdiv (character_wisdom - 10) 2 then
        ("active", (20, 45))
      else if ¬ difficulty ≤ base_roll + Int.fdiv (character_wisdom - 10) 2 ∧
          base_roll + Int.fdiv (character_wisdom - 10) 2 < difficulty - 5 then
        ("drowsy", (5, 20))
      else ("relaxed", (10, 30))) := by
  constructor
  · have h : ((character_wisdom : ℚ) - 10) / 2 = ((character_wisdom - 10 : ℤ) : ℚ) / ((2 : ℕ) : ℚ) := by
      push_cast
      ring
    rw [h, Rat.floor_intCast_div_natCast]
    exact Int.fdiv_eq_ediv _ (by norm_num)
  · simp only [intuition_outcome]
    split_ifs <;> first | rfl | omega

/-- Claim C6 (amended; the original "strictly fewer than duration/dt
entries" fails, see the counterexample): for positive dt and duration,
`poisson_spikes` succeeds, returning only times in [0, duration), each of
the form (bin index) * dt for a bin whose per-bin trial succeeded, and AT
MOST duration / dt entries. -/
theorem c6_poisson_bounds (rng : RNG) (rate duration dt : ℚ) (hdt : 0 < dt)
    (hdur : 0 < duration) :
    (poisson_spikes rng rate duration dt).isOk = true ∧
      ∀ (ts : List ℚ) (r1 : RNG), poisson_spikes rng rate duration dt = .ok (ts, r1) →
        (∀ t ∈ ts, 0 ≤ t ∧ t < duration ∧
            ∃ i : ℕ, t = (i : ℚ) * dt ∧ rng.stream (rng.pos + i) < rate * dt) ∧
          ((ts.length : ℚ) ≤ duration / dt) := by
  have hq : (0 : ℚ) ≤ duration / dt := le_of_lt (div_pos hdur hdt)
  have heq := poisson_spikes_eq_ok rng rate duration dt (ne_of_gt hdt) hq
  have hbins : (((intTrunc (duration / dt)).toNat : ℤ) : ℚ) ≤ duration / dt := by
    rw [intTrunc_eq_floor _ hq, Int.toNat_of_nonneg (Int.floor_nonneg.mpr hq)]
    exact Int.floor_le _
  constructor
  · rw [heq]
    rfl
  · intro ts r1 h
    rw [heq] at h
    simp only [Except.ok.injEq, Prod.mk.injEq] at h
    obtain ⟨hts, -⟩ := h
    subst hts
    constructor
    · intro t ht
      obtain ⟨i, hi, hit⟩ := List.mem_map.mp ht
      obtain ⟨hir, hip⟩ := List.mem_filter.mp hi
      rw [List.mem_range] at hir
      rw [decide_eq_true_eq] at hip
      subst hit
      refine ⟨mul_nonneg (Nat.cast_nonneg i) hdt.le, ?_, ⟨i, rfl, hip⟩⟩
      have hi1 : ((i : ℚ) + 1) ≤ (((intTrunc (duration / dt)).toNat : ℤ) : ℚ) := by
        exact_mod_cast Nat.succ_le_of_lt hir
      have hi2 : (i : ℚ) + 1 ≤ duration / dt := le_trans hi1 hbins
      calc (i : ℚ) * dt < ((i : ℚ) + 1) * dt := mul_lt_mul_of_pos_right (lt_add_one _) hdt
        _ ≤ (duration / dt) * dt := mul_le_mul_of_nonneg_right hi2 hdt.le
        _ = duration := div_mul_cancel₀ _ (ne_of_gt hdt)
    · rw [List.length_map]
      have hlen : ((List.range ((intTrunc (duration / dt)).toNat)).filter
          (fun i => decide (rng.stream (rng.pos + i) < rate * dt))).length
            ≤ (intTrunc (duration / dt)).toNat :=
        le_trans (List.length_filter_le _ _) (le_of_eq (List.length_range _))
      have hc : (((List.range ((intTrunc (duration / dt)).toNat)).filter
          (fun i => decide (rng.stream (rng.pos + i) < rate * dt))).length : ℚ)
            ≤ (((intTrunc (duration / dt)).toNat : ℤ) : ℚ) := by
        exact_mod_cast hlen
      exact le_trans hc hbins

/-- Witness for C6: the amended bound at a concrete input, where the
generator evaluates to four spikes. -/
theorem c6_poisson_bounds_witness :
    (0 : ℚ) < 1/1000 ∧ (0 : ℚ) < 1/250 ∧
      poisson_spikes ⟨fun _ => 0, 0⟩ 20 (1/250) (1/1000)
        = .ok ([0, 1/1000, 1/500, 3/1000], ⟨fun _ => 0, 4⟩) ∧
      ((∀ t ∈ [(0 : ℚ), 1/1000, 1/500, 3/1000], 0 ≤ t ∧ t < 1/250 ∧
          ∃ i : ℕ, t = (i : ℚ) * (1/1000) ∧
            (RNG.mk (fun _ => 0) 0).stream ((RNG.mk (fun _ => 0) 0).pos + i) < 20 * (1/1000)) ∧
        (([(0 : ℚ), 1/1000, 1/500, 3/1000].length : ℚ) ≤ (1/250) / (1/1000))) := by
  have hev : poisson_spikes ⟨fun _ => 0, 0⟩ 20 (1/250) (1/1000)
      = .ok ([0, 1/1000, 1/500, 3/1000], ⟨fun _ => 0, 4⟩) := by
    simp only [poisson_spikes]
    rw [show intTrunc ((1/250 : ℚ) / (1/1000)) = 4 from by norm_num [intTrunc]]
    rw [show ((4 : ℤ)).toNat = 4 from rfl]
    rw [show List.range 4 = [0, 1, 2, 3] from by decide]
    norm_num [List.filter_cons]
  exact ⟨by norm_num, by norm_num, hev,
    (c6_poisson_bounds ⟨fun _ => 0, 0⟩ 20 (1/250) (1/1000) (by norm_num) (by norm_num)).2
      [0, 1/1000, 1/500, 3/1000] ⟨fun _ => 0, 4⟩ hev⟩

/-- Counterexample to C6 as stated: with rate 1000, dt = 1/1000 (so
rate * dt = 1 is within the claimed hypothesis rate * dt ≤ 1) and
duration = 1/1000 > 0, the generator returns one spike, which is NOT
strictly fewer than duration / dt = 1. -/
theorem c6_strict_count_counterexample :
    1000 * (1/1000 : ℚ) ≤ 1 ∧ (0 : ℚ) < 1/1000 ∧
      poisson_spikes ⟨fun _ => 0, 0⟩ 1000 (1/1000) (1/1000) = .ok ([0], ⟨fun _ => 0, 1⟩) ∧
      ¬ ((([(0 : ℚ)].length : ℚ)) < (1/1000 : ℚ) / (1/1000)) := by
  refine ⟨by norm_num, by norm_num, ?_, by norm_num⟩
  simp only [poisson_spikes]
  rw [show intTrunc ((1/1000 : ℚ) / (1/1000)) = 1 from by norm_num [intTrunc]]
  rw [show ((1 : ℤ)).toNat = 1 from rfl]
  rw [show List.range 1 = [0] from by decide]
  norm_num [List.filter_cons]

theorem generate_spike_train_poisson (rng : RNG) (neuron_id : ℕ) (rate duration : ℚ)
    (spb : Option ℕ) (ii rp dt : ℚ) :
    generate_spike_train rng neuron_id rate duration "poisson" spb ii rp dt
      = match poisson_spikes rng rate duration dt with
        | .error e => .error e
        | .ok (spike_times, r1) =>
            .ok ({ neuron_id := neuron_id, spike_times := spike_times,
                   spike_count := spike_times.length, duration := duration, mode := "poisson",
                   firing_rate := if 0 < duration then
                     (spike_times.length : ℚ) / duration else 0 }, r1) := by
  rfl

theorem population_poisson_isOk (rate_range : ℚ × ℚ) (duration : ℚ) (hd : 0 ≤ duration) :
    ∀ (l : List ℕ) (rng : RNG),
      (population_go rate_range duration "poisson" l rng).isOk = true := by
  intro l
  induction l with
  | nil => intro rng; rfl
  | cons i rest ih =>
      intro rng
      simp only [population_go, generate_spike_train_poisson]
      rcases hp : poisson_spikes (rng.uniform rate_range.1 rate_range.2).2
          ((rng.uniform rate_range.1 rate_range.2).1) duration (1/1000) with e | ⟨ts, r2⟩
      · have hok := poisson_spikes_eq_ok (rng.uniform rate_range.1 rate_range.2).2
          ((rng.uniform rate_range.1 rate_range.2).1) duration (1/1000) (by norm_num)
          (div_nonneg hd (by norm_num))
        rw [hp] at hok
        exact absurd hok (by simp)
      · rcases h2 : population_go rate_range duration "poisson" rest r2 with e2 | p2
        · have := ih r2
          rw [h2] at this
          exact absurd this (by simp [Except.isOk, Except.toBool])
        · simp [h2, Except.isOk, Except.toBool]

theorem poisson_spikes_zero_duration (rng : RNG) (rate dt : ℚ) (hdt : dt ≠ 0) :
    poisson_spikes rng rate 0 dt = .ok ([], rng) := by
  rw [poisson_spikes_eq_ok rng rate 0 dt hdt (by simp)]
  simp [intTrunc]

/-- Claim C3 (amended; the original InvalidRange failure never happens, see
the counterexample): the code performs no range or duration validation and
no InvalidRange error exists.  With any nonzero time step (the default is
0.001), a poisson-mode `generate_spike_train` call with duration 0 succeeds,
returning an empty train with `firing_rate` 0 and an unconsumed generator;
and for every nonnegative duration, `generate_population` accepts a rate
range whose min exceeds its max, succeeding with rates drawn from the
reversed interval. -/
theorem c3_no_range_validation (rng : RNG) (neuron_id : ℕ) (rate : ℚ) (spb : Option ℕ)
    (ii rp dt : ℚ) (hdt : dt ≠ 0) (n : ℕ) (a b d : ℚ) (_hab : b < a) (hd : 0 ≤ d) :
    generate_spike_train rng neuron_id rate 0 "poisson" spb ii rp dt
      = .ok ({ neuron_id := neuron_id, spike_times := [], spike_count := 0, duration := 0,
               mode := "poisson", firing_rate := 0 }, rng) ∧
    (generate_population rng n (a, b) d "poisson").isOk = true := by
  constructor
  · rw [generate_spike_train_poisson, poisson_spikes_zero_duration rng rate dt hdt]
    norm_num
  · exact population_poisson_isOk (a, b) d hd (List.range n) rng

/-- Witness for C3: the amended statement instantiated at the default time
step, rate range (30, 10) with 10 < 30, and durations 0 and 1/500. -/
theorem c3_no_range_validation_witness :
    ((1/1000 : ℚ) ≠ 0 ∧ (10 : ℚ) < 30 ∧ (0 : ℚ) ≤ 1/500) ∧
      (generate_spike_train ⟨fun _ => 0, 0⟩ 7 20 0 "poisson" none (1/200) (1/500) (1/1000)
          = .ok ({ neuron_id := 7, spike_times := [], spike_count := 0, duration := 0,
                   mode := "poisson", firing_rate := 0 }, ⟨fun _ => 0, 0⟩) ∧
        (generate_population ⟨fun _ => 0, 0⟩ 2 (30, 10) (1/500) "poisson").isOk = true) :=
  ⟨⟨by norm_num, by norm_num, by norm_num⟩,
    c3_no_range_validation ⟨fun _ => 0, 0⟩ 7 20 none (1/200) (1/500) (1/1000) (by norm_num)
      2 30 10 (1/500) (by norm_num) (by norm_num)⟩

/-- Counterexample to C3 as stated: a poisson `generate_spike_train` call
with duration 0 (and the default time step) does NOT fail — it returns a
spike train record — and a `generate_population` call whose rate-range min
30 exceeds its max 10 does NOT fail either. -/
theorem c3_counterexample :
    generate_spike_train ⟨fun _ => 0, 0⟩ 0 10 0 "poisson" none (1/200) (1/500) (1/1000)
      = .ok ({ neuron_id := 0, spike_times := [], spike_count := 0, duration := 0,
               mode := "poisson", firing_rate := 0 }, ⟨fun _ => 0, 0⟩) ∧
    (generate_population ⟨fun _ => 0, 0⟩ 2 (30, 10) (1/500) "poisson").isOk = true ∧
    (10 : ℚ) < 30 := by
  refine ⟨?_, population_poisson_isOk (30, 10) (1/500) (by norm_num) (List.range 2)
    ⟨fun _ => 0, 0⟩, by norm_num⟩
  rw [generate_spike_train_poisson, poisson_spikes_zero_duration _ _ _ (by norm_num)]
  norm_num

/-- Claim C9 (confirmed): for every mode string outside
{poisson, refractory, burst} (e.g. "telepathy"), `generate_spike_train`
fails with the InvalidMode error carrying that mode and returns no partial
spike train; and whenever a brain model's generation inside
`simulate_activity` fails, the resulting model's `activity_history` equals
the original one (the history append happens only after both generators
succeed). -/
theorem c9_invalid_mode_and_history_frame (mode : String)
    (hmode : mode ∉ ["poisson", "refractory", "burst"]) :
    (∀ (rng : RNG) (neuron_id : ℕ) (rate duration : ℚ) (spb : Option ℕ) (ii rp dt : ℚ),
        generate_spike_train rng neuron_id rate duration mode spb ii rp dt
          = .error (.invalidMode mode)) ∧
    ∀ (msin gauss : ℚ → ℚ) (bm : BrainModel) (duration : ℚ) (state : String)
      (range : ℚ × ℚ) (e : GenError),
        (simulate_activity msin gauss bm duration state range).1 = .error e →
          (simulate_activity msin gauss bm duration state range).2.activity_history
            = bm.activity_history := by
  constructor
  · intro rng neuron_id rate duration spb ii rp dt
    simp only [List.mem_cons, List.not_mem_nil, or_false, not_or] at hmode
    obtain ⟨h1, h2, h3⟩ := hmode
    unfold generate_spike_train
    rw [if_neg h1, if_neg h2, if_neg h3]
  · intro msin gauss bm duration state range e h
    simp only [simulate_activity] at h ⊢
    rcases hpop : generate_population bm.spike_rng bm.n_neurons range duration "poisson"
      with epop | ⟨spike_data, sr1⟩
    · simp only [hpop] at h ⊢
    · simp only [hpop] at h ⊢
      rcases hmon : generate_montage msin gauss bm.sampling_rate bm.eeg_rng bm.eeg_channels
          duration state with emon | ⟨eeg_data, er1⟩
      · simp only [hmon] at h ⊢
      · simp only [hmon] at h ⊢
        exact absurd h (by simp)

/-- Claim C10 (amended with the non-empty channel list the counterexample
forces, and restricted to nonnegative durations, where spike generation
cannot fail first): for every brain model whose EEG channel list is
non-empty, every nonnegative duration and every state outside the four
canonical mental states, `simulate_activity` fails with the UnknownState
error from EEG generation and leaves `activity_history` unchanged, but
`current_state` has already been overwritten with the invalid state and is
not rolled back.  (With a negative duration and at least one neuron the
program instead fails earlier, inside spike generation, with NumPy's
negative-dimension error.) -/
theorem c10_unknown_state_overwrites (msin gauss : ℚ → ℚ) (bm : BrainModel) (duration : ℚ)
    (state : String) (range : ℚ × ℚ)
    (hstate : state ∉ ["relaxed", "focused", "drowsy", "active"])
    (hch : bm.eeg_channels ≠ []) (hdur : 0 ≤ duration) :
    (simulate_activity msin gauss bm duration state range).1 = .error (.unknownState state) ∧
      (simulate_activity msin gauss bm duration state range).2.current_state = state ∧
      (simulate_activity msin gauss bm duration state range).2.activity_history
        = bm.activity_history := by
  simp only [List.mem_cons, List.not_mem_nil, or_false, not_or] at hstate
  obtain ⟨h1, h2, h3, h4⟩ := hstate
  have h1' : "relaxed" ≠ state := Ne.symm h1
  have h2' : "focused" ≠ state := Ne.symm h2
  have h3' : "drowsy" ≠ state := Ne.symm h3
  have h4' : "active" ≠ state := Ne.symm h4
  have hfind : state_profiles.find? (fun p => p.1 == state) = none := by
    rw [List.find?_eq_none]
    intro p hp
    simp only [state_profiles, List.mem_cons, List.not_mem_nil, or_false] at hp
    rcases hp with rfl | rfl | rfl | rfl <;> simp [beq_iff_eq, h1', h2', h3', h4']
  have hmental : ∀ r : RNG,
      generate_mental_state msin gauss bm.sampling_rate r state duration
        = .error (.unknownState state) := by
    intro r
    unfold generate_mental_state
    rw [hfind]
  have hchan : ∀ (r : RNG) (name : String),
      generate_channel_data msin gauss bm.sampling_rate r name duration state
        = .error (.unknownState state) := by
    intro r name
    unfold generate_channel_data
    rw [hmental]
  have hmon : generate_montage msin gauss bm.sampling_rate bm.eeg_rng bm.eeg_channels duration
      state = .error (.unknownState state) := by
    obtain ⟨c, rest, hcc⟩ := List.exists_cons_of_ne_nil hch
    rw [hcc]
    unfold generate_montage
    simp only [montage_go, hchan]
  simp only [simulate_activity]
  rcases hpop : generate_population bm.spike_rng bm.n_neurons range duration "poisson"
    with epop | ⟨spike_data, sr1⟩
  · have hok := population_poisson_isOk range duration hdur (List.range bm.n_neurons)
      bm.spike_rng
    unfold generate_population at hpop
    rw [hpop] at hok
    exact absurd hok (by simp [Except.isOk, Except.toBool])
  · simp [hpop, hmon]

/-- Counterexample to C10 as stated: a `BrainModel` constructed with an
EMPTY channel list never reaches the state check, so with the invalid state
"meditating" no UnknownState error is raised, the snapshot is returned, and
`activity_history` IS extended. -/
theorem c10_counterexample :
    "meditating" ∉ ["relaxed", "focused", "drowsy", "active"] ∧
    (simulate_activity (fun _ => 0) (fun _ => 0)
        (BrainModel.init (fun _ _ => 0) 0 (some []) 250 none) 1 "meditating" (5, 50)).1
      = .ok { duration := 1, state := "meditating", spike_trains := [], eeg_signals := [],
              n_neurons := 0, n_channels := 0, sampling_rate := 250 } ∧
    (simulate_activity (fun _ => 0) (fun _ => 0)
        (BrainModel.init (fun _ _ => 0) 0 (some []) 250 none) 1 "meditating" (5, 50)).2.activity_history
      = [{ duration := 1, state := "meditating", spike_count := 0 }] := by
  refine ⟨by decide, ?_, ?_⟩ <;>
    simp [simulate_activity, BrainModel.init, generate_population, population_go,
      generate_montage, montage_go, List.range_zero]

/-- Witness for C10: the amended statement at a model with the default
(non-empty) channel list and the invalid state "meditating". -/
theorem c10_witness :
    ("meditating" ∉ ["relaxed", "focused", "drowsy", "active"] ∧
      (BrainModel.init (fun _ _ => 0) 3 none 250 none).eeg_channels ≠ [] ∧ (0 : ℚ) ≤ 1) ∧
    ((simulate_activity (fun _ => 0) (fun _ => 0) (BrainModel.init (fun _ _ => 0) 3 none 250 none)
        1 "meditating" (5, 50)).1 = .error (.unknownState "meditating") ∧
      (simulate_activity (fun _ => 0) (fun _ => 0) (BrainModel.init (fun _ _ => 0) 3 none 250 none)
        1 "meditating" (5, 50)).2.current_state = "meditating" ∧
      (simulate_activity (fun _ => 0) (fun _ => 0) (BrainModel.init (fun _ _ => 0) 3 none 250 none)
        1 "meditating" (5, 50)).2.activity_history
        = (BrainModel.init (fun _ _ => 0) 3 none 250 none).activity_history) :=
  ⟨⟨by decide, by decide, by norm_num⟩,
    c10_unknown_state_overwrites (fun _ => 0) (fun _ => 0)
      (BrainModel.init (fun _ _ => 0) 3 none 250 none) 1 "meditating" (5, 50)
      (by decide) (by decide) (by norm_num)⟩

/-- Witness for C9: InvalidMode at mode "telepathy", and the history frame
property at a concrete failing generation (unknown state "astral"). -/
theorem c9_witness :
    ("telepathy" ∉ ["poisson", "refractory", "burst"] ∧
      generate_spike_train ⟨fun _ => 0, 0⟩ 3 20 1 "telepathy" none (1/200) (1/500) (1/1000)
        = .error (.invalidMode "telepathy")) ∧
    (simulate_activity (fun _ => 0) (fun _ => 0)
        (BrainModel.init (fun _ _ => 0) 0 (some ["Fp1"]) 1 none) 1 "astral" (5, 50)).2.activity_history
      = (BrainModel.init (fun _ _ => 0) 0 (some ["Fp1"]) 1 none).activity_history := by
  have herr : (simulate_activity (fun _ => 0) (fun _ => 0)
      (BrainModel.init (fun _ _ => 0) 0 (some ["Fp1"]) 1 none) 1 "astral" (5, 50)).1
        = .error (.unknownState "astral") := by
    simp [simulate_activity, BrainModel.init, generate_population, population_go,
      generate_montage, montage_go, generate_channel_data, generate_mental_state,
      state_profiles, List.find?, List.range_zero]
  exact ⟨⟨by decide,
    (c9_invalid_mode_and_history_frame "telepathy" (by decide)).1 ⟨fun _ => 0, 0⟩ 3 20 1 none
      (1/200) (1/500) (1/1000)⟩,
    (c9_invalid_mode_and_history_frame "telepathy" (by decide)).2 (fun _ => 0) (fun _ => 0)
      (BrainModel.init (fun _ _ => 0) 0 (some ["Fp1"]) 1 none) 1 "astral" (5, 50)
      (.unknownState "astral") herr⟩

/-- Claim C8 (amended; a non-empty weight mapping with zero total breaks
the original "regardless of the input mapping", see the counterexample):
for every input weight mapping whose weights sum to a nonzero total, the
band weights used by `generate_mixed_signal` as per-band amplitudes are the
input weights divided by their total, and they sum to 1; an omitted mapping
means equal weight 1 for each of the five bands (total 5); the empty
mapping passes through as the empty dict without any division. -/
theorem c8_weights_renormalized (ws : List (String × ℚ))
    (hsum : ((ws.map fun p => p.2).sum) ≠ 0) :
    normalize_band_weights ws
        = .ok (ws.map fun p => (p.1, p.2 / (ws.map fun p => p.2).sum)) ∧
      (((ws.map fun p => (p.1, p.2 / (ws.map fun p => p.2).sum)).map fun p => p.2).sum) = 1 ∧
      normalize_band_weights [] = .ok [] ∧
      (BANDS.map fun b => (b.1, (1 : ℚ)))
        = [("delta", 1), ("theta", 1), ("alpha", 1), ("beta", 1), ("gamma", 1)] := by
  refine ⟨?_, ?_, by norm_num [normalize_band_weights], by norm_num [BANDS]⟩
  · unfold normalize_band_weights
    rw [if_neg (fun hc => hsum hc.1)]
  · have hc : ((fun p => p.2) ∘ fun (p : String × ℚ) =>
        (p.1, p.2 / (ws.map fun p => p.2).sum)) = fun p => p.2 / (ws.map fun p => p.2).sum := rfl
    rw [List.map_map, hc]
    simp only [div_eq_mul_inv]
    rw [List.sum_map_mul_right]
    exact mul_inv_cancel₀ hsum

/-- Witness for C8: the amended normalization at the weight list
[("alpha", 2), ("beta", 2)] whose total 4 is nonzero. -/
theorem c8_weights_renormalized_witness :
    (([("alpha", (2 : ℚ)), ("beta", 2)].map fun p => p.2).sum ≠ 0 ∧
      normalize_band_weights [("alpha", 2), ("beta", 2)]
        = .ok ([("alpha", (2 : ℚ)), ("beta", 2)].map fun p =>
            (p.1, p.2 / ([("alpha", (2 : ℚ)), ("beta", 2)].map fun p => p.2).sum))) ∧
      ((([("alpha", (2 : ℚ)), ("beta", 2)].map fun p =>
          (p.1, p.2 / ([("alpha", (2 : ℚ)), ("beta", 2)].map fun p => p.2).sum)).map
            fun p => p.2).sum) = 1 :=
  ⟨⟨by norm_num, (c8_weights_renormalized [("alpha", 2), ("beta", 2)] (by norm_num)).1⟩,
    (c8_weights_renormalized [("alpha", 2), ("beta", 2)] (by norm_num)).2.1⟩

/-- On the empty weight mapping the Python dict comprehension performs no
division: the mapping passes through and `generate_mixed_signal` proceeds
with no bands (a noise-only signal). -/
theorem normalize_band_weights_empty : normalize_band_weights [] = .ok [] := by
  norm_num [normalize_band_weights]

/-- Counterexample to C8 as stated: the input mapping
[("alpha", 1), ("beta", -1)] sums to 0, so normalization raises
ZeroDivisionError and `generate_mixed_signal` fails — no used weights sum
to 1. -/
theorem c8_counterexample :
    normalize_band_weights [("alpha", 1), ("beta", -1)] = .error .zeroDivision ∧
    generate_mixed_signal (fun _ => 0) (fun _ => 0) 250 ⟨fun _ => 0, 0⟩ 1
        (some [("alpha", 1), ("beta", -1)]) (1/10) = .error .zeroDivision := by
  have h : normalize_band_weights [("alpha", (1 : ℚ)), ("beta", -1)] = .error .zeroDivision := by
    have hne : ([("alpha", (1 : ℚ)), ("beta", -1)] : List (String × ℚ)) ≠ [] := by simp
    norm_num [normalize_band_weights, hne]
  refine ⟨h, ?_⟩
  unfold generate_mixed_signal
  simp only [Option.getD_some, h]

theorem find?_map_key_preserving (g : String × ℕ × ℚ → String × ℕ × ℚ)
    (hkey : ∀ p, (g p).1 = p.1) (s : String) :
    ∀ l : List (String × ℕ × ℚ),
      (l.map g).find? (fun p => p.1 == s) = (l.find? (fun p => p.1 == s)).map g := by
  intro l
  induction l with
  | nil => rfl
  | cons a t ih =>
      simp only [List.map_cons, List.find?_cons, hkey a]
      cases hc : (a.1 == s)
      · simpa using ih
      · simp

theorem lookup_update_states (acc : List (String × ℕ × ℚ)) (h : HistoryEntry) (s : String) :
    lookup_state (update_states acc h) s =
      if h.state = s then
        match lookup_state acc s with
        | some cd => some (cd.1 + 1, cd.2 + h.duration)
        | none => some (1, h.duration)
      else lookup_state acc s := by
  unfold update_states lookup_state
  by_cases hmem : (acc.find? fun p => p.1 == h.state).isSome
  · rw [if_pos hmem]
    rw [find?_map_key_preserving _ (by
      intro p
      by_cases hp : (p.1 == h.state) = true <;> simp [hp]) s acc]
    by_cases hs : h.state = s
    · subst hs
      rcases ho : acc.find? (fun p => p.1 == h.state) with _ | p
      · rw [ho] at hmem
        simp at hmem
      · have hp1 : p.1 = h.state := by simpa [beq_iff_eq] using List.find?_some ho
        simp [ho, hp1]
    · rcases ho : acc.find? (fun p => p.1 == s) with _ | p
      · simp [ho, hs]
      · have hp1 : p.1 = s := by simpa [beq_iff_eq] using List.find?_some ho
        have hs' : s ≠ h.state := fun e => hs e.symm
        simp [ho, hs, hp1, hs']
  · rw [if_neg hmem]
    rw [List.find?_append]
    by_cases hs : h.state = s
    · subst hs
      have hnone : acc.find? (fun p => p.1 == h.state) = none := by
        rcases ho : acc.find? (fun p => p.1 == h.state) with _ | p
        · exact ho
        · rw [ho] at hmem
          simp at hmem
      simp [hnone, List.find?]
    · have hsing : ([(h.state, 1, h.duration)].find? fun p => p.1 == s) = none := by
        have hb : (h.state == s) = false := beq_eq_false_iff_ne.mpr hs
        simp [List.find?, hb]
      rw [hsing]
      simp [hs]

theorem foldl_update_states_lookup (s : String) :
    ∀ (l : List HistoryEntry) (acc : List (String × ℕ × ℚ)),
      lookup_state (l.foldl update_states acc) s =
        match lookup_state acc s with
        | some cd => some (cd.1 + state_count l s, cd.2 + state_duration l s)
        | none =>
            if state_count l s = 0 then none
            else some (state_count l s, state_duration l s) := by
  intro l
  induction l with
  | nil =>
      intro acc
      rcases hacc : lookup_state acc s with _ | cd
      · simp [hacc, state_count, state_duration]
      · simp [hacc, state_count, state_duration]
  | cons h t ih =>
      intro acc
      rw [List.foldl_cons, ih (update_states acc h), lookup_update_states]
      by_cases hs : h.state = s
      · rw [if_pos hs]
        have hb : (h.state == s) = true := beq_iff_eq.mpr hs
        have hcnt : state_count (h :: t) s = state_count t s + 1 := by
          simp [state_count, List.filter_cons, hb]
        have hdur : state_duration (h :: t) s = h.duration + state_duration t s := by
          simp [state_duration, List.filter_cons, hb]
        rcases hacc : lookup_state acc s with _ | cd
        · simp only [hacc, hcnt, hdur]
          have hnz : ¬ (state_count t s + 1 = 0) := by omega
          rw [if_neg hnz]
          have h1 : 1 + state_count t s = state_count t s + 1 := by omega
          rw [h1]
        · simp only [hacc, hcnt, hdur]
          have h1 : cd.1 + 1 + state_count t s = cd.1 + (state_count t s + 1) := by omega
          have h2 : cd.2 + h.duration + state_duration t s
              = cd.2 + (h.duration + state_duration t s) := by ring
          rw [h1, h2]
      · rw [if_neg hs]
        have hb : (h.state == s) = false := beq_eq_false_iff_ne.mpr hs
        have hcnt : state_count (h :: t) s = state_count t s := by
          simp [state_count, List.filter_cons, hb]
        have hdur : state_duration (h :: t) s = state_duration t s := by
          simp [state_duration, List.filter_cons, hb]
        rw [hcnt, hdur]

/-- Claim C4 (amended; on an empty history the total-spike and
average-firing-rate fields are ABSENT from the returned dict, see the
counterexample): on an empty history `get_summary_stats` returns
total_simulations 0, total_duration 0 and an empty per-state breakdown,
omitting the total-spike, average-firing-rate, neuron and channel fields,
without dividing by zero; on a non-empty history it returns the entry
count, total duration, total spike count, average firing rate =
total spikes / total duration (0 when the total duration is not positive),
and a per-state breakdown mapping each occurring state to
(count, cumulative duration). -/
theorem c4_summary_stats (nn : ℕ) (chans : List String) (sr : ℚ) (seed : Option ℤ)
    (r1 r2 : RNG) (cs : String) :
    get_summary_stats ⟨nn, chans, sr, seed, r1, r2, cs, []⟩
        = ⟨0, 0, none, none, [], none, none⟩ ∧
      ∀ (h : HistoryEntry) (t : List HistoryEntry),
        (get_summary_stats ⟨nn, chans, sr, seed, r1, r2, cs, h :: t⟩).total_simulations
            = (h :: t).length ∧
          (get_summary_stats ⟨nn, chans, sr, seed, r1, r2, cs, h :: t⟩).total_duration
            = ((h :: t).map fun e => e.duration).sum ∧
          (get_summary_stats ⟨nn, chans, sr, seed, r1, r2, cs, h :: t⟩).total_spikes
            = some ((h :: t).map fun e => e.spike_count).sum ∧
          (get_summary_stats ⟨nn, chans, sr, seed, r1, r2, cs, h :: t⟩).average_firing_rate
            = some (if 0 < ((h :: t).map fun e => e.duration).sum then
                ((((h :: t).map fun e => e.spike_count).sum : ℕ) : ℚ)
                  / ((h :: t).map fun e => e.duration).sum
              else 0) ∧
          ∀ s : String,
            lookup_state (get_summary_stats ⟨nn, chans, sr, seed, r1, r2, cs, h :: t⟩).states s
              = if state_count (h :: t) s = 0 then none
                else some (state_count (h :: t) s, state_duration (h :: t) s) := by
  refine ⟨rfl, ?_⟩
  intro h t
  refine ⟨rfl, rfl, rfl, rfl, ?_⟩
  intro s
  show lookup_state ((h :: t).foldl update_states []) s = _
  rw [foldl_update_states_lookup s (h :: t) []]
  rfl

/-- Counterexample to C4 as stated: on an empty history the returned record
does NOT contain a total spike count or an average firing rate equal to 0 —
the Python dict of the empty branch has no such keys at all (modelled as
`none`). -/
theorem c4_counterexample :
    (get_summary_stats (BrainModel.init (fun _ _ => 0) 100 none 250 (some 42))).total_spikes
        = none ∧
      (get_summary_stats
          (BrainModel.init (fun _ _ => 0) 100 none 250 (some 42))).average_firing_rate
        = none :=
  ⟨rfl, rfl⟩

theorem chain_arith_progression (b interval : ℚ) (n : ℕ) :
    List.Chain' (fun x y => y - x = interval)
      ((List.range n).map fun (i : ℕ) => b + (i : ℚ) * interval) := by
  rw [List.chain'_iff_get]
  intro i hi
  simp only [List.length_map, List.length_range] at hi
  simp only [List.get_eq_getElem, List.getElem_map, List.getElem_range]
  push_cast
  ring

theorem filter_lt_eq_takeWhile_of_sorted (d : ℚ) :
    ∀ l : List ℚ, l.Sorted (· ≤ ·) →
      l.filter (fun t => decide (t < d)) = l.takeWhile (fun t => decide (t < d)) := by
  intro l
  induction l with
  | nil => intro _; rfl
  | cons a t ih =>
      intro hs
      rw [List.sorted_cons] at hs
      rw [List.filter_cons, List.takeWhile_cons]
      by_cases ha : a < d
      · rw [if_pos (by simpa using ha), if_pos (by simpa using ha), ih hs.2]
      · rw [if_neg (by simpa using ha), if_neg (by simpa using ha)]
        rw [List.filter_eq_nil_iff]
        intro x hx
        have := hs.1 x hx
        simp only [decide_eq_true_eq]
        intro hxd
        exact ha (lt_of_le_of_lt this hxd)

theorem filter_lt_eq_dropWhile_of_sorted_ge (d : ℚ) :
    ∀ l : List ℚ, l.Sorted (· ≥ ·) →
      l.filter (fun t => decide (t < d)) = l.dropWhile (fun t => !(decide (t < d))) := by
  intro l
  induction l with
  | nil => intro _; rfl
  | cons a t ih =>
      intro hs
      rw [List.sorted_cons] at hs
      rw [List.filter_cons, List.dropWhile_cons]
      by_cases ha : a < d
      · rw [if_pos (by simpa using ha), if_neg (by simpa using ha)]
        congr 1
        rw [List.filter_eq_self]
        intro x hx
        have hax := hs.1 x hx
        simp only [decide_eq_true_eq]
        exact lt_of_le_of_lt hax ha
      · rw [if_neg (by simpa using ha), if_pos (by simpa using ha)]
        exact ih hs.2

theorem burst_run_chain (spikes_per_burst : ℕ) (duration intraburst_interval b : ℚ) :
    List.Chain' (fun x y => y - x = intraburst_interval)
      (burst_run spikes_per_burst duration intraburst_interval b) := by
  have hchain := chain_arith_progression b intraburst_interval spikes_per_burst
  unfold burst_run
  rcases le_or_lt intraburst_interval 0 with hI | hI
  · have hge : List.Chain' (· ≥ ·)
        ((List.range spikes_per_burst).map fun (i : ℕ) => b + (i : ℚ) * intraburst_interval) :=
      hchain.imp (by
        intro x y h
        simp only [ge_iff_le]
        linarith)
    have hsorted : ((List.range spikes_per_burst).map
        fun (i : ℕ) => b + (i : ℚ) * intraburst_interval).Sorted (· ≥ ·) :=
      List.chain'_iff_pairwise.mp hge
    rw [filter_lt_eq_dropWhile_of_sorted_ge duration _ hsorted]
    have hfull : List.Chain' (fun x y => y - x = intraburst_interval)
        (((List.range spikes_per_burst).map
            fun (i : ℕ) => b + (i : ℚ) * intraburst_interval).takeWhile
              (fun t => !(decide (t < duration))) ++
          ((List.range spikes_per_burst).map
            fun (i : ℕ) => b + (i : ℚ) * intraburst_interval).dropWhile
              (fun t => !(decide (t < duration)))) := by
      rw [List.takeWhile_append_dropWhile]
      exact hchain
    exact (List.chain'_append.mp hfull).2.1
  · have hle : List.Chain' (· ≤ ·)
        ((List.range spikes_per_burst).map fun (i : ℕ) => b + (i : ℚ) * intraburst_interval) :=
      hchain.imp (by
        intro x y h
        linarith)
    have hsorted : ((List.range spikes_per_burst).map
        fun (i : ℕ) => b + (i : ℚ) * intraburst_interval).Sorted (· ≤ ·) :=
      List.chain'_iff_pairwise.mp hle
    rw [filter_lt_eq_takeWhile_of_sorted duration _ hsorted]
    have hfull : List.Chain' (fun x y => y - x = intraburst_interval)
        (((List.range spikes_per_burst).map
            fun (i : ℕ) => b + (i : ℚ) * intraburst_interval).takeWhile
              (fun t => decide (t < duration)) ++
          ((List.range spikes_per_burst).map
            fun (i : ℕ) => b + (i : ℚ) * intraburst_interval).dropWhile
              (fun t => decide (t < duration))) := by
      rw [List.takeWhile_append_dropWhile]
      exact hchain
    exact (List.chain'_append.mp hfull).1

/-- Claim C5 (amended; after sorting, runs from overlapping bursts
interleave, see the counterexample): for every burst generation whose
Poisson onset stage succeeds — with ANY intraburst interval — burst_spikes
succeeds and its output is the ascending sort of the concatenated per-onset
runs: it is sorted ascending, a permutation of those runs, every returned
time is < duration, and within each individual burst's run consecutive
spikes are spaced exactly intraburst_interval apart. -/
theorem c5_burst_sorted_spacing (rng : RNG) (burst_rate : ℚ) (spikes_per_burst : ℕ)
    (duration intraburst_interval dt : ℚ) (onsets : List ℚ) (r0 : RNG)
    (hp : poisson_spikes rng burst_rate duration dt = .ok (onsets, r0)) :
    burst_spikes rng burst_rate spikes_per_burst duration intraburst_interval dt
        = .ok (List.insertionSort (· ≤ ·)
            (onsets.flatMap (burst_run spikes_per_burst duration intraburst_interval)), r0) ∧
      (List.insertionSort (· ≤ ·)
          (onsets.flatMap (burst_run spikes_per_burst duration intraburst_interval))).Sorted
            (· ≤ ·) ∧
      (∀ t ∈ List.insertionSort (· ≤ ·)
          (onsets.flatMap (burst_run spikes_per_burst duration intraburst_interval)),
        t < duration) ∧
      (List.insertionSort (· ≤ ·)
          (onsets.flatMap (burst_run spikes_per_burst duration intraburst_interval))).Perm
        (onsets.flatMap (burst_run spikes_per_burst duration intraburst_interval)) ∧
      ∀ b ∈ onsets,
        List.Chain' (fun x y => y - x = intraburst_interval)
          (burst_run spikes_per_burst duration intraburst_interval b) := by
  refine ⟨?_, List.sorted_insertionSort _ _, ?_, List.perm_insertionSort _ _, ?_⟩
  · unfold burst_spikes
    rw [hp]
  · intro t ht
    have hmem := (List.perm_insertionSort (α := ℚ) (· ≤ ·) _).mem_iff.mp ht
    obtain ⟨b, _, htb⟩ := List.mem_flatMap.mp hmem
    unfold burst_run at htb
    have := List.mem_filter.mp htb
    simpa using this.2
  · intro b _
    exact burst_run_chain spikes_per_burst duration intraburst_interval b

/-- Witness for C5: the amended statement at a concrete generation with a
single burst onset at 0. -/
theorem c5_burst_sorted_spacing_witness :
    poisson_spikes ⟨fun _ => 0, 0⟩ 500 (1/1000) (1/1000) = .ok ([0], ⟨fun _ => 0, 1⟩) ∧
      (burst_spikes ⟨fun _ => 0, 0⟩ 500 2 (1/1000) (1/200) (1/1000)
          = .ok (List.insertionSort (· ≤ ·) ([(0 : ℚ)].flatMap (burst_run 2 (1/1000) (1/200))),
              ⟨fun _ => 0, 1⟩) ∧
        (List.insertionSort (· ≤ ·)
            ([(0 : ℚ)].flatMap (burst_run 2 (1/1000) (1/200)))).Sorted (· ≤ ·) ∧
        (∀ t ∈ List.insertionSort (· ≤ ·) ([(0 : ℚ)].flatMap (burst_run 2 (1/1000) (1/200))),
          t < 1/1000) ∧
        (List.insertionSort (· ≤ ·)
            ([(0 : ℚ)].flatMap (burst_run 2 (1/1000) (1/200)))).Perm
          ([(0 : ℚ)].flatMap (burst_run 2 (1/1000) (1/200))) ∧
        ∀ b ∈ [(0 : ℚ)],
          List.Chain' (fun x y => y - x = 1/200) (burst_run 2 (1/1000) (1/200) b)) := by
  have hp : poisson_spikes ⟨fun _ => 0, 0⟩ 500 (1/1000) (1/1000)
      = .ok ([0], ⟨fun _ => 0, 1⟩) := by
    simp only [poisson_spikes]
    rw [show intTrunc ((1/1000 : ℚ) / (1/1000)) = 1 from by norm_num [intTrunc]]
    rw [show ((1 : ℤ)).toNat = 1 from rfl]
    rw [show List.range 1 = [0] from by decide]
    norm_num [List.filter_cons]
  exact ⟨hp, c5_burst_sorted_spacing ⟨fun _ => 0, 0⟩ 500 2 (1/1000) (1/200) (1/1000) [0]
    ⟨fun _ => 0, 1⟩ hp⟩

/-- Counterexample to C5 as stated: with burst onsets at 0 and 0.002
(overlapping bursts), spikes_per_burst = 2 and intraburst interval 0.005,
the sorted output is [0, 0.002, 0.005, 0.007]; its first aligned run of 2
consecutive entries (none truncated by the duration bound 0.008) is spaced
0.002 apart, not 0.005. -/
theorem c5_counterexample :
    burst_spikes ⟨fun n => if n = 0 ∨ n = 2 then 0 else 1, 0⟩ 500 2 (1/125) (1/200) (1/1000)
        = .ok ([0, 1/500, 1/200, 7/1000], ⟨fun n => if n = 0 ∨ n = 2 then 0 else 1, 8⟩) ∧
      ¬ spaced_runs 2 (1/200) [0, 1/500, 1/200, 7/1000] := by
  constructor
  · have hpois : poisson_spikes ⟨fun n => if n = 0 ∨ n = 2 then 0 else 1, 0⟩ 500 (1/125)
        (1/1000) = .ok ([0, 1/500], ⟨fun n => if n = 0 ∨ n = 2 then 0 else 1, 8⟩) := by
      simp only [poisson_spikes]
      rw [show intTrunc ((1/125 : ℚ) / (1/1000)) = 8 from by norm_num [intTrunc]]
      rw [show ((8 : ℤ)).toNat = 8 from rfl]
      rw [show List.range 8 = [0, 1, 2, 3, 4, 5, 6, 7] from by decide]
      norm_num [List.filter_cons]
    have hrun : ∀ b : ℚ, burst_run 2 (1/125) (1/200) b
        = [b, b + 1/200].filter fun t => decide (t < 1/125) := by
      intro b
      unfold burst_run
      rw [show List.range 2 = [0, 1] from by decide]
      norm_num
    unfold burst_spikes
    rw [hpois]
    simp only [List.flatMap_cons, List.flatMap_nil, hrun, List.append_nil]
    norm_num [List.filter_cons, List.insertionSort, List.orderedInsert]
  · intro hsp
    have h := hsp 0 0 (by norm_num) (by norm_num [List.length_cons])
    simp only [Nat.mul_zero, Nat.zero_add, List.getD, List.getElem?_cons_zero,
      List.getElem?_cons_succ, Option.getD_some] at h
    norm_num at h

/-- Claim C1 (code bug in brain_model.py line 132): the d20 roll is drawn
from the process-wide `np.random` generator, not from either seeded
generator owned by the model.  Two calls on identically-seeded models
(seed 42, identical arguments) that share the global stream — exactly the
situation of two instances in one process — yield d20 rolls 1 and 11, so
the outputs are not bit-identical as the claim (and the spec's determinism
requirement) demand. -/
theorem c1_same_seed_different_roll :
    intuition_roll_of
        (generate_intuition_signal (fun _ => 0) (fun _ => 0)
          ⟨fun n => if n = 0 then 0 else 1/2, 0⟩
          (BrainModel.init (fun _ _ => 0) 0 (some []) 250 (some 42)) 10 10 (1/500)).1
      = some 1 ∧
    intuition_roll_of
        (generate_intuition_signal (fun _ => 0) (fun _ => 0)
          (generate_intuition_signal (fun _ => 0) (fun _ => 0)
            ⟨fun n => if n = 0 then 0 else 1/2, 0⟩
            (BrainModel.init (fun _ _ => 0) 0 (some []) 250 (some 42)) 10 10 (1/500)).2.2
          (BrainModel.init (fun _ _ => 0) 0 (some []) 250 (some 42)) 10 10 (1/500)).1
      = some 11 := by
  have hsim : ∀ (st : String) (range : ℚ × ℚ),
      simulate_activity (fun _ => 0) (fun _ => 0)
        (BrainModel.init (fun _ _ => 0) 0 (some []) 250 (some 42)) (1/500) st range
      = (.ok { duration := 1/500, state := st, spike_trains := [], eeg_signals := [],
               n_neurons := 0, n_channels := 0, sampling_rate := 250 },
         { n_neurons := 0, eeg_channels := [], sampling_rate := 250, seed := some 42,
           spike_rng := ⟨fun _ => 0, 0⟩, eeg_rng := ⟨fun _ => 0, 0⟩, current_state := st,
           activity_history := [{ duration := 1/500, state := st, spike_count := 0 }] }) := by
    intro st range
    simp [simulate_activity, BrainModel.init, generate_population, population_go,
      generate_montage, montage_go]
  have hrand1 : RNG.randint ⟨fun n => if n = 0 then (0 : ℚ) else 1/2, 0⟩ 1 21
      = (1, ⟨fun n => if n = 0 then (0 : ℚ) else 1/2, 1⟩) := by
    simp [RNG.randint]
  have hrand2 : RNG.randint ⟨fun n => if n = 0 then (0 : ℚ) else 1/2, 1⟩ 1 21
      = (11, ⟨fun n => if n = 0 then (0 : ℚ) else 1/2, 2⟩) := by
    simp [RNG.randint]
    rw [show (20 : ℚ) * 2⁻¹ = ((10 : ℤ) : ℚ) from by norm_num, Int.floor_intCast]
    decide
  have hout1 : intuition_outcome 1 10 10 = ("drowsy", (5, 20)) := by
    norm_num [intuition_outcome, show Int.fdiv (10 - 10) 2 = 0 from by decide]
  have hout2 : intuition_outcome 11 10 10 = ("active", (20, 45)) := by
    norm_num [intuition_outcome, show Int.fdiv (10 - 10) 2 = 0 from by decide]
  have hg2 : (generate_intuition_signal (fun _ => 0) (fun _ => 0)
        ⟨fun n => if n = 0 then 0 else 1/2, 0⟩
        (BrainModel.init (fun _ _ => 0) 0 (some []) 250 (some 42)) 10 10 (1/500)).2.2
      = ⟨fun n => if n = 0 then (0 : ℚ) else 1/2, 1⟩ := by
    simp only [generate_intuition_signal, hrand1, hout1, hsim]
  constructor
  · simp only [generate_intuition_signal, hrand1, hout1, hsim]
    simp [intuition_roll_of, show Int.fdiv (10 - 10) 2 = 0 from by decide]
  · rw [hg2]
    simp only [generate_intuition_signal, hrand2, hout2, hsim]
    simp [intuition_roll_of, show Int.fdiv (10 - 10) 2 = 0 from by decide]
